import Mathlib

/-!
# Verification of the Study_Buddy core against its specification

A shallow embedding, in Lean 4, of the score-normalization engine, the
topic-analytics merge, the AI-client evaluation pipeline, the submission
status lifecycle, and the free-text JSON extraction of the Study_Buddy
repository.  Every definition is translated from the JavaScript source;
JavaScript numbers are modelled as exact rationals (`ℚ`), JavaScript's
`undefined`/absent values as `Option`, and thrown exceptions as `Except`
or early termination of an explicitly modelled control flow.
-/

namespace StudyBuddy

/-! ## ScoreEngine: `calculateVedamSubjectScore` (part_006, lines 323-367)

`const clamp = (value, min, max) => Math.min(Math.max(value, min), max)` and
the subject-score normalization.  `Number(x.toFixed(2))` is modelled exactly
on rationals as rounding to two decimal places (`round2`). -/

/-- Source helper `clamp(value, min, max) = Math.min(Math.max(value, min), max)` from part_006. -/
def clamp (value lo hi : ℚ) : ℚ := min (max value lo) hi

/-- Model of `Number(x.toFixed(2))`: round to two decimal places. -/
def round2 (q : ℚ) : ℚ := (round (q * 100) : ℚ) / 100

/-- One raw contest entry as received by `calculateVedamSubjectScore`.
`rawScore`/`maxScore` are `Option ℚ`: `none` models a value whose JavaScript
`typeof` is not `"number"` (the code filters on `typeof ... === "number"`). -/
structure ContestEntryInput where
  contestId : Option String
  contestTitle : Option String
  rawScore : Option ℚ
  maxScore : Option ℚ
deriving DecidableEq

/-- A sanitized entry produced by the `.map` step of `calculateVedamSubjectScore`. -/
structure SanitizedEntry where
  contestId : Option String
  contestTitle : String
  rawScore : ℚ
  maxScore : ℚ
  normalizedScore : ℚ
deriving DecidableEq

/-- The result object of `calculateVedamSubjectScore`. -/
structure SubjectScore where
  entries : List SanitizedEntry
  contestNormalizedTotal : ℚ
  contestMaxPossible : ℚ
  contestScaled40 : ℚ
  mockScore : ℚ
  total : ℚ
deriving DecidableEq

/-- The filter predicate of `calculateVedamSubjectScore`:
`entry && typeof entry.rawScore === "number" && typeof entry.maxScore === "number"
 && entry.maxScore > 0`.  A `none` element of the input list models a falsy
(`null`/`undefined`) array element. -/
def entryParticipates (e : Option ContestEntryInput) : Bool :=
  match e with
  | none => false
  | some entry => entry.rawScore.isSome && entry.maxScore.isSome &&
      (match entry.maxScore with | some m => decide (0 < m) | none => false)

/-- The `.map` step: normalize one participating entry.  Defaults are taken
exactly as in source (`entry.contestTitle || ""`); the `getD 0` arms are dead
because the filter guarantees the fields are numbers. -/
def sanitizeEntry (entry : ContestEntryInput) : SanitizedEntry :=
  let raw := entry.rawScore.getD 0
  let mx := entry.maxScore.getD 0
  let normalized := clamp (raw / mx * 50) 0 50
  { contestId := entry.contestId
    contestTitle := entry.contestTitle.getD ""
    rawScore := round2 raw
    maxScore := round2 mx
    normalizedScore := round2 normalized }

instance : Inhabited ContestEntryInput := ⟨⟨none, none, none, none⟩⟩

/-- The function `calculateVedamSubjectScore(contestEntries, mockScore)` from part_006 lines
325-367.  `mockScore : Option ℚ` models `mockScore ?? 0` (absent → 0). -/
def calculateVedamSubjectScore (contestEntries : List (Option ContestEntryInput))
    (mockScore : Option ℚ) : SubjectScore :=
  let sanitizedEntries :=
    ((contestEntries.filter entryParticipates).map (fun e => sanitizeEntry (e.getD default)))
  let contestNormalizedTotal :=
    sanitizedEntries.foldl (fun sum e => sum + e.normalizedScore) 0
  let contestCount := sanitizedEntries.length
  -- `contestCount * 50 || 1`: `||` replaces the falsy value 0 by 1.
  let contestMaxPossible : ℚ :=
    if (contestCount * 50 : ℚ) = 0 then 1 else (contestCount * 50 : ℚ)
  let contestScaled40 := clamp (contestNormalizedTotal / contestMaxPossible * 40) 0 40
  let sanitizedMock := clamp (mockScore.getD 0) 0 60
  let total := clamp (contestScaled40 + sanitizedMock) 0 100
  { entries := sanitizedEntries
    contestNormalizedTotal := round2 contestNormalizedTotal
    contestMaxPossible := contestMaxPossible
    contestScaled40 := round2 contestScaled40
    mockScore := round2 sanitizedMock
    total := round2 total }

/-! ## Topic analytics: the merge of `upsertTopicAnalytics` (part_006, lines 630-663)
and `normalizeTopicName` (part_006, lines 946-949). -/

/-- The three strength labels stored in topic analytics. -/
inductive Strength where
  | weak
  | medium
  | strong
deriving DecidableEq

/-- A stored topic-analytics entry (`score`, `strength`, `contestCount`).
The `lastUpdated: serverTimestamp()` field is a persistence-side timestamp
sentinel and carries no program-visible value, so it is not modelled. -/
structure TopicEntry where
  score : ℚ
  strength : Strength
  contestCount : ℕ
deriving DecidableEq

/-- One element of `topicUpdates`: both fields may be absent (`undefined`). -/
structure TopicUpdate where
  score : Option ℚ
  strength : Option Strength
deriving DecidableEq

/-- The topics map: a JavaScript object keyed by topic-name strings. -/
def TopicsMap : Type := String → Option TopicEntry

/-- The merge loop of `upsertTopicAnalytics` (part_006 lines 636-649):

```
const mergedTopics = { ...existingTopics };
for (const [topicName, update] of Object.entries(topicUpdates)) {
  if (!mergedTopics[topicName] || update.score !== undefined) {
    mergedTopics[topicName] = {
      score: update.score ?? mergedTopics[topicName]?.score ?? 50,
      strength: update.strength ?? mergedTopics[topicName]?.strength ?? "medium",
      lastUpdated: serverTimestamp(),
      contestCount: (mergedTopics[topicName]?.contestCount || 0) + 1,
    };
  }
}
```

`topicUpdates` is modelled as the list of its `Object.entries`. -/
def mergeTopicUpdates (existingTopics : TopicsMap)
    (topicUpdates : List (String × TopicUpdate)) : TopicsMap :=
  topicUpdates.foldl
    (fun mergedTopics (entry : String × TopicUpdate) =>
      let topicName := entry.1
      let update := entry.2
      if (mergedTopics topicName).isNone || update.score.isSome then
        fun k =>
          if k = topicName then
            some
              { score := update.score.getD (((mergedTopics topicName).map (·.score)).getD 50)
                strength :=
                  update.strength.getD (((mergedTopics topicName).map (·.strength)).getD .medium)
                contestCount := ((mergedTopics topicName).map (·.contestCount)).getD 0 + 1 }
          else mergedTopics k
      else mergedTopics)
    existingTopics

/-- The empty topics map (a fresh analytics document with no `topics`). -/
def emptyTopics : TopicsMap := fun _ => none

/-- JavaScript's `\s` / `trim` whitespace, restricted to the ASCII range
(the repository's topic names and AI responses are ASCII). -/
def jsWhitespace (c : Char) : Bool :=
  c = ' ' || c = '\t' || c = '\n' || c = '\r' || c = '\x0b' || c = '\x0c'

/-- JavaScript's `String.prototype.toLowerCase` on one character, ASCII range. -/
def jsToLowerChar (c : Char) : Char :=
  if 'A' ≤ c && c ≤ 'Z' then Char.ofNat (c.toNat + 32) else c

/-- JavaScript's `String.prototype.trim`: drop whitespace from both ends. -/
def jsTrimChars (l : List Char) : List Char :=
  ((l.dropWhile jsWhitespace).reverse.dropWhile jsWhitespace).reverse

/-- The function `normalizeTopicName(topic)` from part_006 lines 946-949:
`topic.toLowerCase().trim()`, with falsy input mapped to `""`.
The input is modelled as a string (`typeof topic === 'string'` holds). -/
def normalizeTopicName (topic : String) : String :=
  if topic = "" then "" else String.mk (jsTrimChars (topic.data.map jsToLowerChar))

/-- The caller-side derivation of strength from a score, as written at
AdminPanel.jsx lines 762/952/1079 and JavaEditor.jsx line 437:
`score >= 75 ? "strong" : score < 50 ? "weak" : "medium"`. -/
def strengthOfScore (score : ℚ) : Strength :=
  if 75 ≤ score then .strong else if score < 50 then .weak else .medium

/-- The caller-side construction of `topicUpdates` from `evaluation.topicScores`
(AdminPanel.jsx lines 948-954, JavaEditor.jsx lines 433-439):
each topic gets `{ score: Number(score), strength: <derived> }`. -/
def buildTopicUpdates (topicScores : List (String × ℚ)) : List (String × TopicUpdate) :=
  topicScores.map (fun ts => (ts.1, ⟨some ts.2, some (strengthOfScore ts.2)⟩))

/-! ## JavaScript values and `evaluateCodeSubmission`'s report normalization
(part_004, lines 358-410). -/

/-- A JavaScript value as observable by the evaluation-report validation code.
`vundefined` is `undefined` (also the result of reading an absent field); numbers
are exact rationals (`NaN`/`Infinity` are not produced by `JSON.parse` and the
validation only meets parsed values or its own defaults). -/
inductive JSVal where
  | vundefined
  | vnull
  | vbool (b : Bool)
  | vnum (q : ℚ)
  | vstr (s : String)
  | varr (elems : List JSVal)
  | vobj (fields : List (String × JSVal))

namespace JSVal

/-- Property read `v.name`: first matching key of an object, `undefined`
otherwise (objects produced by `JSON.parse` have unique keys). -/
def getField (v : JSVal) (name : String) : JSVal :=
  match v with
  | .vobj fields =>
    match fields.find? (fun f => f.1 = name) with
    | some f => f.2
    | none => .vundefined
  | _ => .vundefined

/-- JavaScript's `Array.isArray(v)`. -/
def isArray (v : JSVal) : Bool :=
  match v with
  | .varr _ => true
  | _ => false

/-- The test `typeof v === "object"` — true for objects, arrays AND `null`
(a JavaScript quirk the validation code inherits). -/
def typeofIsObject (v : JSVal) : Bool :=
  match v with
  | .vnull => true
  | .varr _ => true
  | .vobj _ => true
  | _ => false

/-- JavaScript truthiness of a value (`NaN` numbers excluded from the model). -/
def truthy (v : JSVal) : Bool :=
  match v with
  | .vundefined => false
  | .vnull => false
  | .vbool b => b
  | .vnum q => !(q = 0)
  | .vstr s => !(s = "")
  | .varr _ => true
  | .vobj _ => true

/-- A decimal-literal fragment of JavaScript's `Number(string)` coercion:
optional sign, digits, optional fractional digits.  Returns `none` for
anything else (modelling `NaN`; exponents/hex literals are not modelled —
no claim depends on them). -/
def strToNumberCore (l : List Char) : Option ℚ :=
  let digitsToNat : List Char → Option ℕ :=
    fun ds =>
      if ds.isEmpty then none
      else if ds.all (fun c => c.isDigit) then
        some (ds.foldl (fun acc c => acc * 10 + (c.toNat - 48)) 0)
      else none
  let unsigned : List Char → Option ℚ := fun body =>
    match body.splitOn '.' with
    | [intPart] => (digitsToNat intPart).map (fun n => (n : ℚ))
    | [intPart, fracPart] =>
      match digitsToNat intPart, digitsToNat fracPart with
      | some i, some f => some ((i : ℚ) + (f : ℚ) / ((10 : ℚ) ^ fracPart.length))
      | _, _ => none
    | _ => none
  match l with
  | '-' :: rest => (unsigned rest).map (fun q => -q)
  | '+' :: rest => unsigned rest
  | _ => (unsigned l).map id

/-- Coercion `Number(string)`: trimmed empty string is `0`; a decimal literal parses;
everything else is `NaN` (`none`). -/
def strToNumber (s : String) : Option ℚ :=
  let t := jsTrimChars s.data
  if t.isEmpty then some 0 else strToNumberCore t

/-- The `Number(v)` coercion on the values the validation can meet.
`none` models `NaN`.  Arrays coerce through their single element
(`Number([]) = 0`, `Number([x]) = Number(x)`, longer arrays are `NaN`);
plain objects are `NaN`. -/
def toNumber (v : JSVal) : Option ℚ :=
  match v with
  | .vundefined => none
  | .vnull => some 0
  | .vbool b => some (if b then 1 else 0)
  | .vnum q => some q
  | .vstr s => strToNumber s
  | .varr [] => some 0
  | .varr [x] =>
    (match x with
     | .vnum q => some q
     | .vnull => some 0
     | .vstr s => strToNumber s
     | _ => none)
  | .varr _ => none
  | .vobj _ => none

end JSVal

/-- The evaluation report returned by `evaluateCodeSubmission`.  Fields keep
their raw JavaScript values: the validation coerces shapes, not contents. -/
structure EvalReport where
  strengths : JSVal
  weaknesses : JSVal
  suggestions : JSVal
  topicScores : JSVal
  overallScore : JSVal
  detailedAnalysis : JSVal
  practiceQuestions : JSVal

/-- The expression `Number(x) || 50`: the numeric coercion, with the falsy results `0` and
`NaN` replaced by `50` (part_004 line 398). -/
def numberOr50 (v : JSVal) : ℚ :=
  match JSVal.toNumber v with
  | none => 50
  | some q => if q = 0 then 50 else q

/-- The validate-and-normalize return object of `evaluateCodeSubmission`
(part_004 lines 394-405):

```
return {
  strengths: Array.isArray(evaluationData.strengths) ? evaluationData.strengths : [],
  weaknesses: Array.isArray(evaluationData.weaknesses) ? evaluationData.weaknesses : [],
  suggestions: Array.isArray(evaluationData.suggestions) ? evaluationData.suggestions : [],
  topicScores: typeof evaluationData.topicScores === "object" ? evaluationData.topicScores : {},
  overallScore: Number(evaluationData.overallScore) || 50,
  detailedAnalysis: evaluationData.detailedAnalysis || response,
  practiceQuestions: Array.isArray(evaluationData.practiceQuestions) ? ... : [],
};
``` -/
def validateEvaluationData (evaluationData : JSVal) (response : String) : EvalReport :=
  { strengths :=
      if (evaluationData.getField "strengths").isArray then evaluationData.getField "strengths"
      else .varr []
    weaknesses :=
      if (evaluationData.getField "weaknesses").isArray then evaluationData.getField "weaknesses"
      else .varr []
    suggestions :=
      if (evaluationData.getField "suggestions").isArray then evaluationData.getField "suggestions"
      else .varr []
    topicScores :=
      if (evaluationData.getField "topicScores").typeofIsObject then
        evaluationData.getField "topicScores"
      else .vobj []
    overallScore := .vnum (numberOr50 (evaluationData.getField "overallScore"))
    detailedAnalysis :=
      if (evaluationData.getField "detailedAnalysis").truthy then
        evaluationData.getField "detailedAnalysis"
      else .vstr response
    practiceQuestions :=
      if (evaluationData.getField "practiceQuestions").isArray then
        evaluationData.getField "practiceQuestions"
      else .varr [] }

/-- The fallback structure built when JSON parsing of the AI response fails
(part_004 lines 384-392); `detailedAnalysis: response || "No detailed
analysis available"`. -/
def fallbackEvaluationData (response : String) : JSVal :=
  .vobj
    [("strengths", .varr []),
     ("weaknesses", .varr []),
     ("suggestions", .varr []),
     ("topicScores", .vobj []),
     ("overallScore", .vnum 50),
     ("detailedAnalysis",
       .vstr (if response = "" then "No detailed analysis available" else response)),
     ("practiceQuestions", .varr [])]

/-- The function `evaluateCodeSubmission`'s response post-processing (part_004 lines
368-405): `parsed` is the outcome of the JSON-extraction attempt on the
(non-empty, string) backend `response` — `some v` when a JSON value was
parsed, `none` when parsing failed and the fallback structure is used.
Either way the result is passed through `validateEvaluationData`. -/
def evaluateCodeSubmissionReport (response : String) (parsed : Option JSVal) : EvalReport :=
  validateEvaluationData (parsed.getD (fallbackEvaluationData response)) response

/-! ## `callGeminiAPI`'s ordered model fallback (part_004, lines 110-270). -/

/-- The outcome of one per-model generation attempt, as classified by
`callGeminiAPI`'s per-candidate `catch` (part_004 lines 243-263):
a success carries the returned text; `modelUnavailable` is the 404
"model not found / not supported" class; `timeout` is an `AbortError`;
`networkError` is a `fetch` failure; `fatal` is any other error, which the
catch re-throws immediately instead of trying further candidates. -/
inductive AttemptOutcome where
  | success (text : String)
  | modelUnavailable (message : String)
  | timeout
  | networkError (message : String)
  | fatal (message : String)
deriving DecidableEq

/-- The terminal error of `callGeminiAPI`: either a fatal per-candidate error
surfaced immediately, or the aggregate "All Gemini models failed" error
carrying the last recorded per-candidate failure reason. -/
inductive GeminiError where
  | fatal (message : String)
  | allModelsFailed (lastError : Option String)
deriving DecidableEq

/-- The `for (const model of modelsToTry)` loop of `callGeminiAPI` (part_004
lines 113-254): each candidate is tried in order; `modelUnavailable`,
`timeout` and `networkError` record a `lastError` and continue with the next
candidate; `fatal` is re-thrown at once; a success returns its text.  When
every candidate is exhausted the aggregate error (with the last recorded
failure) is thrown.  `attempts` pairs each ranked candidate with the outcome
its network attempt would produce. -/
def tryModelsLoop (attempts : List (String × AttemptOutcome)) (lastError : Option String) :
    Except GeminiError String :=
  match attempts with
  | [] => .error (.allModelsFailed lastError)
  | (model, outcome) :: rest =>
    match outcome with
    | .success text => .ok text
    | .modelUnavailable message =>
      tryModelsLoop rest (some ("Model " ++ model ++ " not available: " ++ message))
    | .timeout =>
      tryModelsLoop rest (some ("API request timed out for model " ++ model))
    | .networkError message =>
      tryModelsLoop rest (some ("Network error: " ++ message))
    | .fatal message => .error (.fatal message)

/-! ## SubmissionLifecycle (part_006 `createSubmission`/`updateSubmissionStatus`;
AdminPanel.jsx bulk upload lines 695-795, `handleUploadSubmission` lines
877-1015; JavaEditor.jsx `handleSubmit` lines 342-499).

A submission's status history is the sequence of status values durably
recorded for it: `"pending"` written by `createSubmission`, then each
successful `updateSubmissionStatus` call.  Each flow is embedded as a trace
generator over the success/failure of its awaited steps (a failed await
throws, following the `try`/`catch` structure of the source). -/

/-- The submission status values (part_006 line 489 comment:
`"pending", "submitted", "evaluating", "evaluated", "error"`). -/
inductive SubmissionStatus where
  | pending
  | submitted
  | evaluating
  | evaluated
  | error
deriving DecidableEq

/-- Position of a status in the lifecycle order
`pending < submitted < evaluating < {evaluated | error}`. -/
def statusRank (s : SubmissionStatus) : ℕ :=
  match s with
  | .pending => 0
  | .submitted => 1
  | .evaluating => 2
  | .evaluated => 3
  | .error => 3

/-- The status trace written by `JavaEditor.handleSubmit` (JavaEditor.jsx
lines 342-499) for the submission it creates.  Parameters: `createOk` —
`createSubmission` succeeded (writes `"pending"`); `submittedOk` — the
`"submitted"` status write succeeded (on failure the outer catch performs no
further status writes); `wantAIReview` — the student requested evaluation;
`evaluatingOk` — the `"evaluating"` write succeeded; `evalOk` — the AI
evaluation, report save and analytics steps all succeeded; `evaluatedOk` —
the `"evaluated"` write succeeded; `errorOk` — the `"error"` write in the
inner catch succeeded (on failure the exception escapes to the outer catch,
which writes nothing). -/
def handleSubmitTrace (createOk submittedOk wantAIReview evaluatingOk evalOk evaluatedOk
    errorOk : Bool) : List SubmissionStatus :=
  if !createOk then []
  else .pending ::
    (if !submittedOk then []
     else .submitted ::
      (if !wantAIReview then []
       else
        -- inner try/catch around the evaluation pipeline
        if !evaluatingOk then (if errorOk then [.error] else [])
        else .evaluating ::
          (if !evalOk then (if errorOk then [.error] else [])
           else if !evaluatedOk then (if errorOk then [.error] else [])
           else [.evaluated])))

/-- The status trace written by `AdminPanel.handleUploadSubmission`
(AdminPanel.jsx lines 877-1015).  One outer `try`; its `catch` writes
`"error"` only when `submissionRef` exists.  `questionFound` models the
`Question not found` check, which throws before the `"evaluating"` write. -/
def handleUploadTrace (createOk submittedOk questionFound evaluatingOk evalOk evaluatedOk
    errorOk : Bool) : List SubmissionStatus :=
  if !createOk then []
  else .pending ::
    (if !submittedOk then (if errorOk then [.error] else [])
     else .submitted ::
      (if !questionFound then (if errorOk then [.error] else [])
       else if !evaluatingOk then (if errorOk then [.error] else [])
       else .evaluating ::
        (if !evalOk then (if errorOk then [.error] else [])
         else if !evaluatedOk then (if errorOk then [.error] else [])
         else [.evaluated])))

/-- The per-submission status trace of the AdminPanel bulk-upload loop
(AdminPanel.jsx lines 695-795): create, `"submitted"`, then an inner
`try`/`catch` around the evaluation whose catch writes `"error"` inside its
own `try` (a failure of that write is swallowed); the outer per-submission
catch writes no status. -/
def bulkUploadTrace (createOk submittedOk evaluatingOk evalOk evaluatedOk
    errorOk : Bool) : List SubmissionStatus :=
  if !createOk then []
  else .pending ::
    (if !submittedOk then []
     else .submitted ::
      (if !evaluatingOk then (if errorOk then [.error] else [])
       else .evaluating ::
        (if !evalOk then (if errorOk then [.error] else [])
         else if !evaluatedOk then (if errorOk then [.error] else [])
         else [.evaluated])))

/-- Every adjacent pair of a status trace satisfies `r`. -/
def adjacentOK (r : SubmissionStatus → SubmissionStatus → Bool) :
    List SubmissionStatus → Bool
  | [] => true
  | [_] => true
  | a :: b :: rest => r a b && adjacentOK r (b :: rest)

/-- The three lifecycle guarantees claimed for one submission's full history:
every recorded transition strictly increases `statusRank` (the history is
monotone and never revisits an earlier state), `error` and `evaluated` never
both occur, and no status is ever written after a terminal
(`evaluated`/`error`) status. -/
def WellFormedHistory (t : List SubmissionStatus) : Prop :=
  adjacentOK (fun a b => decide (statusRank a < statusRank b)) t = true ∧
  ¬(SubmissionStatus.error ∈ t ∧ SubmissionStatus.evaluated ∈ t) ∧
  adjacentOK (fun a _ =>
    !(a = SubmissionStatus.evaluated) && !(a = SubmissionStatus.error)) t = true

instance (t : List SubmissionStatus) : Decidable (WellFormedHistory t) :=
  inferInstanceAs (Decidable (_ = true ∧ ¬(_ ∈ t ∧ _ ∈ t) ∧ _ = true))


/-! ## `generateJavaCodingQuestions`' JSON extraction (part_004, lines 1121-1247)

The response-cleaning pre-pass (regex field rewriting with
`escapeJsonString`), the `findBalancedJSON` brace-balanced scanner, the code
fence matcher, and `JSON.parse`, all modelled on character lists. -/

/-- Per-character form of `escapeJsonString` (part_004 lines 1135-1144): the chain of global
single-character replacements (backslash first, then quote, `\n`, `\r`,
`\t`, `\f`, `\v`).  Because each later replacement's target cannot occur in
any earlier replacement's output, the chain equals this single per-character
substitution pass. -/
def escChar (c : Char) : List Char :=
  if c = '\\' then ['\\', '\\']
  else if c = '"' then ['\\', '"']
  else if c = '\n' then ['\\', 'n']
  else if c = '\r' then ['\\', 'r']
  else if c = '\t' then ['\\', 't']
  else if c = '\x0c' then ['\\', 'f']
  else if c = '\x0b' then ['\\', 'v']
  else [c]

/-- The helper `escapeJsonString` applied to a whole captured field value. -/
def escapeJsonString (l : List Char) : List Char := l.flatMap escChar

/-- The lookahead `(?=\s*[,}])` of the field-rewriting regexes: the closing
quote must be followed by optional whitespace and then `,` or the closing
brace. -/
def fieldLookahead (l : List Char) : Bool :=
  match l.dropWhile jsWhitespace with
  | c :: _ => c = ',' || c = '\x7d'
  | [] => false

/-- The non-greedy capture `([\s\S]*?)"` with the lookahead: scan forward to
the first `"` whose continuation satisfies the lookahead; return the
captured content and the remainder after that quote. -/
def scanFieldValue : List Char → Option (List Char × List Char)
  | [] => none
  | c :: rest =>
    if c = '"' && fieldLookahead rest then some ([], rest)
    else (scanFieldValue rest).map (fun p => (c :: p.1, p.2))

/-- Attempt to match `"FIELD"\s*:\s*"([\s\S]*?)"(?=\s*[,}])` starting exactly
at the head of `l`; on success return the captured content and the remainder
after the closing quote. -/
def matchFieldAt (field : List Char) (l : List Char) : Option (List Char × List Char) :=
  match l with
  | '"' :: rest =>
    if field.isPrefixOf rest then
      match rest.drop field.length with
      | '"' :: afterName =>
        match afterName.dropWhile jsWhitespace with
        | ':' :: afterColon =>
          match afterColon.dropWhile jsWhitespace with
          | '"' :: afterQuote => scanFieldValue afterQuote
          | _ => none
        | _ => none
      | _ => none
    else none
  | _ => none

/-- One global-replace pass
`text.replace(/"FIELD"\s*:\s*"([\s\S]*?)"(?=\s*[,}])/g, '"FIELD": "<escaped>"')`
(part_004 lines 1148-1163): scan left to right; at each position either the
pattern matches (emit the normalized field with escaped content, resume after
the match) or the character is copied.  `fuel` bounds the scan; the wrapper
supplies more fuel than the input length, which suffices because every step
consumes at least one input character. -/
def sanitizeFieldAux (field : List Char) : ℕ → List Char → List Char
  | 0, l => l
  | _ + 1, [] => []
  | fuel + 1, c :: rest =>
    match matchFieldAt field (c :: rest) with
    | some (content, after) =>
      '"' :: field ++ '"' :: ':' :: ' ' :: '"' :: (escapeJsonString content ++ '"' ::
        sanitizeFieldAux field fuel after)
    | none => c :: sanitizeFieldAux field fuel rest

/-- The field-rewriting pass for one field name. -/
def sanitizeField (field : List Char) (l : List Char) : List Char :=
  sanitizeFieldAux field (l.length + 1) l

/-- The function `findBalancedJSON`'s scanning loop (part_004 lines 1166-1204): walks
characters tracking string context, the escape state of the character after
a backslash, and brace depth outside strings; returns the consumed slice
when depth returns to zero. -/
def findBalancedAux : List Char → Bool → Bool → ℕ → List Char → Option (List Char)
  | [], _, _, _, _ => none
  | c :: rest, inString, escapeNext, depth, acc =>
    if escapeNext then findBalancedAux rest inString false depth (acc ++ [c])
    else if c = '\\' then findBalancedAux rest inString true depth (acc ++ [c])
    else if c = '"' then findBalancedAux rest (!inString) false depth (acc ++ [c])
    else if !inString && c = '\x7b' then
      findBalancedAux rest inString false (depth + 1) (acc ++ [c])
    else if !inString && c = '\x7d' then
      if depth = 1 then some (acc ++ [c])
      else findBalancedAux rest inString false (depth - 1) (acc ++ [c])
    else findBalancedAux rest inString false depth (acc ++ [c])

/-- The function `findBalancedJSON(str)`: start at the first `{` (null if none) and scan
until the brace depth returns to zero. -/
def findBalancedJSON (l : List Char) : Option (List Char) :=
  match l.dropWhile (fun c => !(c = '\x7b')) with
  | [] => none
  | c :: rest => findBalancedAux (c :: rest) false false 0 []

/-- The greedy capture `(\{[\s\S]*\})\s*` of the fence regex, applied to a
suffix beginning at `{`: the capture extends to the last `}` that is
followed by optional whitespace and a closing fence. -/
def fenceGreedyCapture (l : List Char) : Option (List Char) :=
  match l with
  | '\x7b' :: rest =>
    let cuts := (List.range rest.length).filter (fun j =>
      rest.getD j ' ' = '\x7d' &&
        List.isPrefixOf "```".data ((rest.drop (j + 1)).dropWhile jsWhitespace))
    match cuts.max? with
    | some j => some ('\x7b' :: rest.take (j + 1))
    | none => none
  | _ => none

/-- Try the fence pattern ```` ```(?:json)?\s*(\{[\s\S]*\})\s*``` ```` at the
head of `l`; the optional `json` tag is greedy with backtracking. -/
def fenceAt (l : List Char) : Option (List Char) :=
  match l with
  | '`' :: '`' :: '`' :: rest =>
    let tryBody := fun (afterTag : List Char) =>
      fenceGreedyCapture (afterTag.dropWhile jsWhitespace)
    if List.isPrefixOf "json".data rest then
      match tryBody (rest.drop 4) with
      | some cap => some cap
      | none => tryBody rest
    else tryBody rest
  | _ => none

/-- Leftmost search for the fence pattern
(`cleanedResponse.match(/```(?:json)?\s*(\{[\s\S]*\})\s*```/)`, part_004 line
1206): try each start position left to right, returning the first capture. -/
def fenceMatch : List Char → Option (List Char)
  | [] => none
  | c :: rest =>
    match fenceAt (c :: rest) with
    | some cap => some cap
    | none => fenceMatch rest

/-- A parsed JSON value (`JSON.parse` output); strings are kept as character
lists. -/
inductive Json where
  | jnull
  | jbool (b : Bool)
  | jnum (q : ℚ)
  | jstr (s : List Char)
  | jarr (elems : List Json)
  | jobj (fields : List (List Char × Json))

/-- The whitespace accepted between tokens by `JSON.parse`
(space, tab, line feed, carriage return only). -/
def jsonWs (c : Char) : Bool :=
  c = ' ' || c = '\t' || c = '\n' || c = '\r'

/-- Value of a hexadecimal digit, if any. -/
def hexDigit (c : Char) : Option ℕ :=
  if '0' ≤ c && c ≤ '9' then some (c.toNat - 48)
  else if 'a' ≤ c && c ≤ 'f' then some (c.toNat - 87)
  else if 'A' ≤ c && c ≤ 'F' then some (c.toNat - 55)
  else none

/-- The `JSON.parse` string-body scanner, entered after the opening quote:
literal characters below `0x20` are a syntax error, `\` introduces one of the
eight JSON escapes or a `\uXXXX` code unit. -/
def parseStringBody : List Char → Option (List Char × List Char)
  | [] => none
  | c :: rest =>
    if c = '"' then some ([], rest)
    else if c = '\\' then
      match rest with
      | [] => none
      | e :: rest2 =>
        if e = 'u' then
          match rest2 with
          | h1 :: h2 :: h3 :: h4 :: rest3 =>
            match hexDigit h1, hexDigit h2, hexDigit h3, hexDigit h4 with
            | some a, some b, some cc, some d =>
              (parseStringBody rest3).map
                (fun p => (Char.ofNat (((a * 16 + b) * 16 + cc) * 16 + d) :: p.1, p.2))
            | _, _, _, _ => none
          | _ => none
        else
          match
            (if e = '"' then some '"'
             else if e = '\\' then some '\\'
             else if e = '/' then some '/'
             else if e = 'b' then some '\x08'
             else if e = 'f' then some '\x0c'
             else if e = 'n' then some '\n'
             else if e = 'r' then some '\r'
             else if e = 't' then some '\t'
             else none) with
          | some decoded => (parseStringBody rest2).map (fun p => (decoded :: p.1, p.2))
          | none => none
    else if c.toNat < 32 then none
    else (parseStringBody rest).map (fun p => (c :: p.1, p.2))

/-- JSON number grammar: `-? (0 | [1-9][0-9]*) (\.[0-9]+)? ([eE][-+]?[0-9]+)?`. -/
def parseNumberBody (l : List Char) : Option (ℚ × List Char) :=
  let digitsVal : List Char → ℕ := fun ds =>
    ds.foldl (fun acc c => acc * 10 + (c.toNat - 48)) 0
  let parseInt : List Char → Option (ℕ × ℕ × List Char) := fun m =>
    match m with
    | '0' :: rest => some (0, 1, rest)
    | c :: _ =>
      if c.isDigit && !(c = '0') then
        let ds := m.takeWhile Char.isDigit
        some (digitsVal ds, ds.length, m.dropWhile Char.isDigit)
      else none
    | [] => none
  let core : List Char → Option (ℚ × List Char) := fun m =>
    match parseInt m with
    | none => none
    | some (ip, _, rest1) =>
      let withFrac : Option (ℚ × List Char) :=
        match rest1 with
        | '.' :: rest2 =>
          let fds := rest2.takeWhile Char.isDigit
          if fds.isEmpty then none
          else some ((ip : ℚ) + (digitsVal fds : ℚ) / (10 : ℚ) ^ fds.length,
            rest2.dropWhile Char.isDigit)
        | _ => some ((ip : ℚ), rest1)
      match withFrac with
      | none => none
      | some (base, rest2) =>
        match rest2 with
        | 'e' :: rest3 | 'E' :: rest3 =>
          let signed : Option (Bool × List Char) :=
            match rest3 with
            | '-' :: rest4 => some (true, rest4)
            | '+' :: rest4 => some (false, rest4)
            | _ => some (false, rest3)
          match signed with
          | some (negExp, rest4) =>
            let eds := rest4.takeWhile Char.isDigit
            if eds.isEmpty then none
            else
              let k := digitsVal eds
              some ((if negExp then base / (10 : ℚ) ^ k else base * (10 : ℚ) ^ k),
                rest4.dropWhile Char.isDigit)
          | none => none
        | _ => some (base, rest2)
  match l with
  | '-' :: rest => (core rest).map (fun p => (-p.1, p.2))
  | _ => core l

mutual

/-- The `JSON.parse` value parser.  `fuel` decreases on every nested value and
on every array element / object member, so any fuel exceeding the input
length completes the parse. -/
def parseJsonValue : ℕ → List Char → Option (Json × List Char)
  | 0, _ => none
  | fuel + 1, l =>
    match l.dropWhile jsonWs with
    | '"' :: rest => (parseStringBody rest).map (fun p => (.jstr p.1, p.2))
    | 't' :: 'r' :: 'u' :: 'e' :: rest => some (.jbool true, rest)
    | 'f' :: 'a' :: 'l' :: 's' :: 'e' :: rest => some (.jbool false, rest)
    | 'n' :: 'u' :: 'l' :: 'l' :: rest => some (.jnull, rest)
    | '\x7b' :: rest =>
      (match rest.dropWhile jsonWs with
       | '\x7d' :: rest2 => some (.jobj [], rest2)
       | body => parseJsonMembers fuel body [])
    | '[' :: rest =>
      (match rest.dropWhile jsonWs with
       | ']' :: rest2 => some (.jarr [], rest2)
       | body => parseJsonElems fuel body [])
    | rest => (parseNumberBody rest).map (fun p => (.jnum p.1, p.2))

/-- Object members after `{` (at least one member present). -/
def parseJsonMembers : ℕ → List Char → List (List Char × Json) →
    Option (Json × List Char)
  | 0, _, _ => none
  | fuel + 1, l, acc =>
    match l with
    | '"' :: rest =>
      match parseStringBody rest with
      | none => none
      | some (key, rest2) =>
        match rest2.dropWhile jsonWs with
        | ':' :: rest3 =>
          match parseJsonValue fuel rest3 with
          | none => none
          | some (v, rest4) =>
            match rest4.dropWhile jsonWs with
            | ',' :: rest5 => parseJsonMembers fuel (rest5.dropWhile jsonWs) (acc ++ [(key, v)])
            | '\x7d' :: rest5 => some (.jobj (acc ++ [(key, v)]), rest5)
            | _ => none
        | _ => none
    | _ => none

/-- Array elements after `[` (at least one element present). -/
def parseJsonElems : ℕ → List Char → List Json → Option (Json × List Char)
  | 0, _, _ => none
  | fuel + 1, l, acc =>
    match parseJsonValue fuel l with
    | none => none
    | some (v, rest) =>
      match rest.dropWhile jsonWs with
      | ',' :: rest2 => parseJsonElems fuel rest2 (acc ++ [v])
      | ']' :: rest2 => some (.jarr (acc ++ [v]), rest2)
      | _ => none

end

/-- Top-level `JSON.parse(text)`: parse one value and require only whitespace after it. -/
def jsonParse (l : List Char) : Option Json :=
  match parseJsonValue (l.length + 2) l with
  | some (v, rest) => if (rest.dropWhile jsonWs).isEmpty then some v else none
  | none => none

/-- The cleaning pre-pass of `generateJavaCodingQuestions` (part_004 lines
1131-1163): trim, then rewrite the `codeTemplate`, `input` and `description`
fields, in source order. -/
def cleanJavaQuestionsResponse (l : List Char) : List Char :=
  sanitizeField "description".data
    (sanitizeField "input".data
      (sanitizeField "codeTemplate".data (jsTrimChars l)))

/-- The parse flow of `generateJavaCodingQuestions` (part_004 lines
1206-1219): if the fence pattern matches, `JSON.parse` its capture; else if a
balanced `{...}` slice is found, parse that; else parse the whole cleaned
text.  A parse failure of the selected slice fails the whole extraction (the
`catch` at line 1240 turns it into a thrown error) — there is no fallback
from one strategy's parse failure to the next strategy. -/
def extractJavaQuestionsJSON (response : List Char) : Option Json :=
  match fenceMatch (cleanJavaQuestionsResponse response) with
  | some cap => jsonParse cap
  | none =>
    match findBalancedJSON (cleanJavaQuestionsResponse response) with
    | some s => jsonParse s
    | none => jsonParse (cleanJavaQuestionsResponse response)

/-- The characters allowed in a "well-behaved" free-text `description` value:
printable characters other than `"`, `\\` and `` ` ``, plus newline,
carriage return and tab.  (A value may still contain braces, commas and
colons — the scanners must not be confused by them.) -/
def goodDescChar (c : Char) : Bool :=
  c = '\n' || c = '\r' || c = '\t' ||
    (32 ≤ c.toNat && !(c = '"') && !(c = '\\') && !(c = '`'))

/-- The claim's input family: a JSON-like text whose `description` field
holds the free-text value `v` between plain quotes. -/
def descTemplate (v : List Char) : List Char :=
  '\x7b' :: '"' :: ("description".data ++ '"' :: ':' :: '"' :: (v ++ ['"', '\x7d']))

/-- The normal form produced by the `description` rewriting pass on
`descTemplate v`: the field spacing is normalized to `": "` and the value is
escaped. -/
def sanitizedDescTemplate (v : List Char) : List Char :=
  '\x7b' :: '"' :: ("description".data ++ '"' :: ':' :: ' ' :: '"' ::
    (escapeJsonString v ++ '"' :: '\x7d' :: []))

/-- A response text whose `description` string value contains an escaped
quote followed by a comma and, later, an unescaped literal newline:
`{"description":"a\", b<LF>c"}`.  The non-greedy field capture stops at the
escaped quote (its lookahead sees the comma), the rewritten text is no longer
valid JSON, the balanced scan ends inside an open string, and every parse
strategy fails. -/
def badDescText : List Char :=
  '\x7b' :: '"' :: ("description".data ++ '"' :: ':' :: '"' ::
    ('a' :: '\\' :: '"' :: ',' :: ' ' :: 'b' :: '\n' :: 'c' :: ['"', '\x7d']))

/-! # Theorems

One theorem per claim (with witnesses for theorems that carry hypotheses,
and counterexamples for corrected claims), preceded by the helper lemmas
they share. -/

/-- C3.  `calculateVedamSubjectScore` on
`[{rawScore:18,maxScore:20},{rawScore:8,maxScore:10}]` with `mockScore = 55`
normalizes the entries to `[45, 40]` (out of 50 each), scales the contest
component to `(85/100)*40 = 34`, and totals `min(34+55,100) = 89`. -/
theorem spec_c3_subject_score_example :
    ((calculateVedamSubjectScore
        [some ⟨none, none, some 18, some 20⟩, some ⟨none, none, some 8, some 10⟩]
        (some 55)).entries.map (·.normalizedScore) = [45, 40]) ∧
    (calculateVedamSubjectScore
        [some ⟨none, none, some 18, some 20⟩, some ⟨none, none, some 8, some 10⟩]
        (some 55)).contestScaled40 = 34 ∧
    (calculateVedamSubjectScore
        [some ⟨none, none, some 18, some 20⟩, some ⟨none, none, some 8, some 10⟩]
        (some 55)).total = 89 := by
  refine ⟨?_, ?_, ?_⟩ <;>
    · simp [calculateVedamSubjectScore, sanitizeEntry, entryParticipates, clamp, round2]
      norm_num [round_eq]

/-- C4.  Entries with a non-numeric `rawScore`/`maxScore` or a non-positive
`maxScore` are excluded from normalization entirely (filtering them away
first changes nothing), the scaling denominator is `count × 50` with a
minimum of `1`, it is never zero, and with zero participating entries the
contest-scaled component is `0`. -/
theorem spec_c4_normalization_exclusion_safety
    (entries : List (Option ContestEntryInput)) (mock : Option ℚ) :
    calculateVedamSubjectScore (entries.filter entryParticipates) mock =
        calculateVedamSubjectScore entries mock ∧
    (calculateVedamSubjectScore entries mock).contestMaxPossible =
        max (((entries.filter entryParticipates).length * 50 : ℚ)) 1 ∧
    (calculateVedamSubjectScore entries mock).contestMaxPossible ≠ 0 ∧
    ((entries.filter entryParticipates).length = 0 →
      (calculateVedamSubjectScore entries mock).contestScaled40 = 0) := by
  have hfilter : (entries.filter entryParticipates).filter entryParticipates
      = entries.filter entryParticipates := by
    simp [List.filter_filter]
  refine ⟨?_, ?_, ?_, ?_⟩
  · simp [calculateVedamSubjectScore, hfilter]
  · simp only [calculateVedamSubjectScore, List.length_map]
    rcases Nat.eq_zero_or_pos (entries.filter entryParticipates).length with h | h
    · simp [h]
    · have h50 : (50 : ℚ) ≤ ((entries.filter entryParticipates).length * 50 : ℚ) := by
        have : (1 : ℚ) ≤ ((entries.filter entryParticipates).length : ℚ) := by
          exact_mod_cast h
        nlinarith
      have hne : (((entries.filter entryParticipates).length * 50 : ℚ)) ≠ 0 := by
        intro hc
        rw [hc] at h50
        norm_num at h50
      rw [if_neg hne]
      rw [max_eq_left (by linarith)]
  · simp only [calculateVedamSubjectScore, List.length_map]
    split
    · norm_num
    · next h => exact h
  · intro h
    have hnil : entries.filter entryParticipates = [] := List.length_eq_zero.mp h
    simp [calculateVedamSubjectScore, hnil, clamp, round2]

/-- C4 witness: the theorem applied at a concrete input (`[null]`, mock 55)
with the zero-participant premise discharged. -/
theorem spec_c4_witness :
    (([(none : Option ContestEntryInput)].filter entryParticipates).length = 0) ∧
    calculateVedamSubjectScore ([(none : Option ContestEntryInput)].filter entryParticipates)
        (some 55) = calculateVedamSubjectScore [none] (some 55) ∧
    (calculateVedamSubjectScore [(none : Option ContestEntryInput)] (some 55)).contestScaled40
        = 0 :=
  ⟨by decide, (spec_c4_normalization_exclusion_safety [none] (some 55)).1,
    (spec_c4_normalization_exclusion_safety [none] (some 55)).2.2.2 (by decide)⟩

/-- C1 counterexample.  Merging the single update `{"arrays": {score: 80}}`
(no `strength` field — the claim's update carries only a score) into an empty
topics map stores strength `"medium"`, not the claimed `"strong"`: the merge
takes `update.strength ?? existing ?? "medium"` and never recomputes strength
from the score.  Likewise the second merge `{score: 40}` keeps the stored
strength instead of recomputing `"weak"`. -/
theorem spec_c1_counterexample :
    (mergeTopicUpdates emptyTopics [("arrays", ⟨some 80, none⟩)]) "arrays"
        = some ⟨80, .medium, 1⟩ ∧
    (mergeTopicUpdates (mergeTopicUpdates emptyTopics [("arrays", ⟨some 80, none⟩)])
        [("arrays", ⟨some 40, none⟩)]) "arrays" = some ⟨40, .medium, 2⟩ ∧
    Strength.medium ≠ Strength.strong ∧ Strength.medium ≠ Strength.weak :=
  ⟨rfl, rfl, by decide, by decide⟩

/-- C1 amended.  The merge stores the update's own strength (it does not
recompute it from the score); the callers derive strength from the score with
the `>=75 strong / <50 weak / else medium` rule before calling.  With updates
built that way, the claim's example holds: merging `{"arrays": 80}` into an
empty map yields `{score: 80, strength: "strong", contestCount: 1}` and a
subsequent merge of `{"arrays": 40}` yields
`{score: 40, strength: "weak", contestCount: 2}`; in general an update
carrying an explicit score and strength overwrites both and increments
`contestCount` by one for that topic. -/
theorem spec_c1_amended :
    (∀ (m : TopicsMap) (name : String) (s : ℚ) (st : Strength),
      (mergeTopicUpdates m [(name, ⟨some s, some st⟩)]) name
        = some ⟨s, st, ((m name).map (·.contestCount)).getD 0 + 1⟩) ∧
    (mergeTopicUpdates emptyTopics (buildTopicUpdates [("arrays", 80)])) "arrays"
        = some ⟨80, .strong, 1⟩ ∧
    (mergeTopicUpdates (mergeTopicUpdates emptyTopics (buildTopicUpdates [("arrays", 80)]))
        (buildTopicUpdates [("arrays", 40)])) "arrays" = some ⟨40, .weak, 2⟩ := by
  refine ⟨?_, ?_, ?_⟩
  · intro m name s st
    simp [mergeTopicUpdates]
  · have h80 : strengthOfScore 80 = .strong := by
      norm_num [strengthOfScore]
    simp [mergeTopicUpdates, buildTopicUpdates, emptyTopics, h80]
  · have h80 : strengthOfScore 80 = .strong := by
      norm_num [strengthOfScore]
    have h40 : strengthOfScore 40 = .weak := by
      norm_num [strengthOfScore]
    simp [mergeTopicUpdates, buildTopicUpdates, emptyTopics, h80, h40]

/-- C8 counterexample.  The analytics merge does no topic-name normalization:
merging an update keyed `"Arrays"` and then the same update keyed
`"arrays "` creates two distinct entries (each with `contestCount` 1), and no
entry under the normalized key `"arrays"` — had the two merges hit one
shared entry, it would carry `contestCount` 2. -/
theorem spec_c8_counterexample :
    (mergeTopicUpdates (mergeTopicUpdates emptyTopics [("Arrays", ⟨some 80, some .strong⟩)])
        [("arrays ", ⟨some 80, some .strong⟩)]) "Arrays" = some ⟨80, .strong, 1⟩ ∧
    (mergeTopicUpdates (mergeTopicUpdates emptyTopics [("Arrays", ⟨some 80, some .strong⟩)])
        [("arrays ", ⟨some 80, some .strong⟩)]) "arrays " = some ⟨80, .strong, 1⟩ ∧
    (mergeTopicUpdates (mergeTopicUpdates emptyTopics [("Arrays", ⟨some 80, some .strong⟩)])
        [("arrays ", ⟨some 80, some .strong⟩)]) "arrays" = none :=
  ⟨rfl, rfl, rfl⟩

/-- C8 amended.  `upsertTopicAnalytics` merges under the topic names exactly
as given, so `"Arrays"` and `"arrays "` produce two distinct entries; the
case/whitespace normalization (`normalizeTopicName`, lowercase + trim, under
which both keys collide to `"arrays"`) exists in the persistence module but
is applied by the important-topics upsert (`upsertImpTopics`), not by the
analytics merge. -/
theorem spec_c8_amended :
    normalizeTopicName "Arrays" = "arrays" ∧
    normalizeTopicName "arrays " = "arrays" ∧
    (mergeTopicUpdates (mergeTopicUpdates emptyTopics [("Arrays", ⟨some 80, some .strong⟩)])
        [("arrays ", ⟨some 80, some .strong⟩)]) "Arrays"
      ≠ (mergeTopicUpdates (mergeTopicUpdates emptyTopics
            [("Arrays", ⟨some 80, some .strong⟩)])
        [("arrays ", ⟨some 80, some .strong⟩)]) "arrays" := by
  refine ⟨by decide, by decide, ?_⟩
  intro h
  rw [show (mergeTopicUpdates (mergeTopicUpdates emptyTopics
        [("Arrays", ⟨some 80, some .strong⟩)])
      [("arrays ", ⟨some 80, some .strong⟩)]) "Arrays" = some ⟨80, .strong, 1⟩ from rfl] at h
  rw [show (mergeTopicUpdates (mergeTopicUpdates emptyTopics
        [("Arrays", ⟨some 80, some .strong⟩)])
      [("arrays ", ⟨some 80, some .strong⟩)]) "arrays" = none from rfl] at h
  exact Option.noConfusion h

/-- C9.  A merge leaves every topic whose name does not occur in the update
set completely unchanged (same stored entry, hence same score, strength and
contest count). -/
theorem spec_c9_merge_frame (existing : TopicsMap)
    (updates : List (String × TopicUpdate)) (k : String)
    (h : ∀ u ∈ updates, u.1 ≠ k) :
    mergeTopicUpdates existing updates k = existing k := by
  induction updates generalizing existing with
  | nil => rfl
  | cons u rest ih =>
    have hu : u.1 ≠ k := h u (by simp)
    have hrest : ∀ w ∈ rest, w.1 ≠ k := fun w hw => h w (by simp [hw])
    have step : mergeTopicUpdates existing (u :: rest)
        = mergeTopicUpdates
            (if (existing u.1).isNone || u.2.score.isSome then
              (fun j => if j = u.1 then
                some
                  { score := u.2.score.getD (((existing u.1).map (·.score)).getD 50)
                    strength :=
                      u.2.strength.getD (((existing u.1).map (·.strength)).getD .medium)
                    contestCount := ((existing u.1).map (·.contestCount)).getD 0 + 1 }
                else existing j)
             else existing) rest := by
      simp [mergeTopicUpdates]
    rw [step, ih _ hrest]
    split
    · have hk : ¬(k = u.1) := fun hc => hu hc.symm
      simp [hk]
    · rfl

/-- C9 witness: a map holding `"loops"` is untouched by a merge updating
`"arrays"`. -/
theorem spec_c9_witness :
    (∀ u ∈ [("arrays", (⟨some 80, some .strong⟩ : TopicUpdate))], u.1 ≠ "loops") ∧
    mergeTopicUpdates
        (fun k => if k = "loops" then some ⟨60, .medium, 2⟩ else none)
        [("arrays", ⟨some 80, some .strong⟩)] "loops"
      = (fun k => if k = "loops" then some ⟨60, .medium, 2⟩ else none) "loops" :=
  ⟨by simp, spec_c9_merge_frame _ _ "loops" (by simp)⟩

/-- C7.  With three ranked candidates whose first two attempts fail with the
model-unavailable error class and whose third succeeds, the completion loop
returns the third candidate's successful text; the earlier failures are only
recorded in the internal `lastError` accumulator and do not surface in any
error. -/
theorem spec_c7_third_candidate_success (m1 m2 m3 e1 e2 text : String)
    (lastError : Option String) :
    tryModelsLoop
        [(m1, .modelUnavailable e1), (m2, .modelUnavailable e2), (m3, .success text)]
        lastError = .ok text := rfl

/-- C5 counterexample.  A successfully parsed evaluation value with
`overallScore: 150` is returned with `overallScore` 150 — the validation
performs no clamping, so the returned overall score does not lie in
`[0,100]` as claimed. -/
theorem spec_c5_counterexample :
    (evaluateCodeSubmissionReport "raw response"
        (some (.vobj [("overallScore", .vnum 150)]))).overallScore = .vnum 150 ∧
    (∀ q : ℚ, (evaluateCodeSubmissionReport "raw response"
        (some (.vobj [("overallScore", .vnum 150)]))).overallScore = .vnum q → 100 < q) := by
  have h : (evaluateCodeSubmissionReport "raw response"
      (some (.vobj [("overallScore", .vnum 150)]))).overallScore = .vnum 150 := by
    show JSVal.vnum (numberOr50 (.vnum 150)) = .vnum 150
    norm_num [numberOr50, JSVal.toNumber]
  refine ⟨h, fun q hq => ?_⟩
  rw [h] at hq
  have : (150 : ℚ) = q := by
    injection hq
  linarith [this]

/-- C5 amended.  The report is always structurally populated: the four list
fields are arrays, `topicScores` has JavaScript type `object` (which admits
`null` — `typeof null === "object"`), `overallScore` is a number,
`detailedAnalysis` is never missing, and when extraction fails the arrays are
empty, `overallScore` is 50 and `detailedAnalysis` is the raw response text.
No `[0,100]` clamping is applied to `overallScore` (or to `topicScores`
values). -/
theorem spec_c5_amended (parsed : Option JSVal) (response : String) :
    (evaluateCodeSubmissionReport response parsed).strengths.isArray ∧
    (evaluateCodeSubmissionReport response parsed).weaknesses.isArray ∧
    (evaluateCodeSubmissionReport response parsed).suggestions.isArray ∧
    (evaluateCodeSubmissionReport response parsed).practiceQuestions.isArray ∧
    (evaluateCodeSubmissionReport response parsed).topicScores.typeofIsObject ∧
    (∃ q : ℚ, (evaluateCodeSubmissionReport response parsed).overallScore = .vnum q) ∧
    (evaluateCodeSubmissionReport response parsed).detailedAnalysis ≠ .vundefined ∧
    (parsed = none →
      (evaluateCodeSubmissionReport response parsed).strengths = .varr [] ∧
      (evaluateCodeSubmissionReport response parsed).weaknesses = .varr [] ∧
      (evaluateCodeSubmissionReport response parsed).suggestions = .varr [] ∧
      (evaluateCodeSubmissionReport response parsed).practiceQuestions = .varr [] ∧
      (evaluateCodeSubmissionReport response parsed).overallScore = .vnum 50 ∧
      (evaluateCodeSubmissionReport response parsed).detailedAnalysis
        = .vstr (if response = "" then "No detailed analysis available" else response)) := by
  set d := parsed.getD (fallbackEvaluationData response) with hd
  refine ⟨?_, ?_, ?_, ?_, ?_, ?_, ?_, ?_⟩
  · show (if (d.getField "strengths").isArray then _ else JSVal.varr []).isArray = true
    split <;> simp_all [JSVal.isArray]
  · show (if (d.getField "weaknesses").isArray then _ else JSVal.varr []).isArray = true
    split <;> simp_all [JSVal.isArray]
  · show (if (d.getField "suggestions").isArray then _ else JSVal.varr []).isArray = true
    split <;> simp_all [JSVal.isArray]
  · show (if (d.getField "practiceQuestions").isArray then _ else JSVal.varr []).isArray = true
    split <;> simp_all [JSVal.isArray]
  · show (if (d.getField "topicScores").typeofIsObject then _
      else JSVal.vobj []).typeofIsObject = true
    split <;> simp_all [JSVal.typeofIsObject]
  · exact ⟨numberOr50 (d.getField "overallScore"), rfl⟩
  · show (if (d.getField "detailedAnalysis").truthy then d.getField "detailedAnalysis"
      else JSVal.vstr response) ≠ JSVal.vundefined
    split
    · next htr =>
      intro hc
      rw [hc] at htr
      simp [JSVal.truthy] at htr
    · intro hc
      exact JSVal.noConfusion hc
  · intro hp
    subst hp
    by_cases hr : response = "" <;>
      simp [evaluateCodeSubmissionReport, validateEvaluationData, fallbackEvaluationData,
        JSVal.getField, JSVal.isArray, JSVal.typeofIsObject, JSVal.truthy, numberOr50,
        JSVal.toNumber, hr]

/-- C5 witness: the amended theorem applied with a failed extraction
(`parsed = none`) and a non-empty raw response. -/
theorem spec_c5_witness :
    (evaluateCodeSubmissionReport "oops" none).overallScore = .vnum 50 ∧
    (evaluateCodeSubmissionReport "oops" none).detailedAnalysis = .vstr "oops" ∧
    (evaluateCodeSubmissionReport "oops" none).strengths = .varr [] := by
  have h := (spec_c5_amended none "oops").2.2.2.2.2.2.2 rfl
  refine ⟨h.2.2.2.2.1, ?_, h.1⟩
  have hd := h.2.2.2.2.2
  simpa using hd

/-- C10 counterexample.  A parsed evaluation whose `overallScore` is the
non-numeric value `true` is NOT returned with the neutral default 50:
`Number(true) = 1` is truthy, so the caller receives overall score 1.  The
claim's "any non-numeric value" is therefore too broad — only values whose
`Number(...)` coercion yields `0` or `NaN` collapse to 50. -/
theorem spec_c10_counterexample :
    (evaluateCodeSubmissionReport "raw"
        (some (.vobj [("overallScore", .vbool true)]))).overallScore = .vnum 1 ∧
    JSVal.vnum (1 : ℚ) ≠ .vnum 50 := by
  constructor
  · show JSVal.vnum (numberOr50 (.vbool true)) = .vnum 1
    norm_num [numberOr50, JSVal.toNumber]
  · intro h
    have h1 : (1 : ℚ) = 50 := by injection h
    norm_num at h1

/-- C10 amended.  A successfully parsed evaluation whose `overallScore` field
is exactly `0`, or any value whose `Number(...)` coercion is `NaN` (a
non-numeric string, `undefined`/missing, an object, ...), is returned with
`overallScore` 50: the coercion `Number(evaluationData.overallScore) || 50`
maps the falsy results `0` and `NaN` to the neutral default, making an
explicit backend zero indistinguishable from a missing score. -/
theorem spec_c10_amended (evalData : JSVal) (response : String)
    (h : JSVal.toNumber (evalData.getField "overallScore") = none ∨
         JSVal.toNumber (evalData.getField "overallScore") = some 0) :
    (evaluateCodeSubmissionReport response (some evalData)).overallScore = .vnum 50 := by
  show JSVal.vnum (numberOr50 (evalData.getField "overallScore")) = .vnum 50
  rcases h with h | h <;> simp [numberOr50, h]

/-- C10 witness: an explicit `overallScore: 0` from the backend is returned
as 50. -/
theorem spec_c10_witness :
    (JSVal.toNumber ((JSVal.vobj [("overallScore", .vnum 0)]).getField "overallScore") = none ∨
     JSVal.toNumber ((JSVal.vobj [("overallScore", .vnum 0)]).getField "overallScore")
        = some 0) ∧
    (evaluateCodeSubmissionReport "raw"
        (some (.vobj [("overallScore", .vnum 0)]))).overallScore = .vnum 50 :=
  ⟨Or.inr rfl, spec_c10_amended (.vobj [("overallScore", .vnum 0)]) "raw" (Or.inr rfl)⟩

/-- C2.  For every combination of step successes and failures, each of the
three reachable submission pipelines (student submit, admin single upload,
admin bulk upload) produces a status history that is strictly increasing in
the order `pending < submitted < evaluating < {evaluated | error}` (hence
monotonic, with no transition back), never contains both `error` and
`evaluated` (a submission that errors during evaluation never becomes
`evaluated`), and never writes anything after a terminal
`evaluated`/`error` status. -/
theorem spec_c2_lifecycle_monotone :
    ∀ a b c d e f g : Bool,
      WellFormedHistory (handleSubmitTrace a b c d e f g) ∧
      WellFormedHistory (handleUploadTrace a b c d e f g) ∧
      WellFormedHistory (bulkUploadTrace a b c d e f) := by decide

/-! ### C6 helper lemmas: behaviour of the cleaning pre-pass, the balanced
scanner and the JSON parser on a description field with a well-behaved
free-text value. -/

/-- Case analysis on a well-behaved description character. -/
theorem goodDescChar_elim (c : Char) (h : goodDescChar c = true) :
    c = '\n' ∨ c = '\r' ∨ c = '\t' ∨
      (32 ≤ c.toNat ∧ ¬c = '"' ∧ ¬c = '\\' ∧ ¬c = '`') := by
  simp only [goodDescChar, Bool.or_eq_true, Bool.and_eq_true, decide_eq_true_eq,
    Bool.not_eq_true', decide_eq_false_iff_not] at h
  tauto

/-- A well-behaved description character is never a double quote. -/
theorem goodDescChar_ne_quote (c : Char) (h : goodDescChar c = true) : ¬c = '"' := by
  rcases goodDescChar_elim c h with h | h | h | ⟨_, hq, _, _⟩ <;>
    first
      | (subst h; decide)
      | exact hq

theorem escapeJsonString_nil : escapeJsonString [] = [] := rfl

theorem escapeJsonString_cons (a : Char) (v : List Char) :
    escapeJsonString (a :: v) = escChar a ++ escapeJsonString v := by
  simp [escapeJsonString]

/-- A printable non-quote non-backslash character passes through the escape
pass unchanged. -/
theorem escChar_printable (a : Char) (h32 : 32 ≤ a.toNat) (hq : ¬a = '"')
    (hb : ¬a = '\\') : escChar a = [a] := by
  have hn : ¬a = '\n' := by intro hc; subst hc; exact absurd h32 (by decide)
  have hr : ¬a = '\r' := by intro hc; subst hc; exact absurd h32 (by decide)
  have ht : ¬a = '\t' := by intro hc; subst hc; exact absurd h32 (by decide)
  have hf : ¬a = '\x0c' := by intro hc; subst hc; exact absurd h32 (by decide)
  have hv : ¬a = '\x0b' := by intro hc; subst hc; exact absurd h32 (by decide)
  simp [escChar, hq, hb, hn, hr, ht, hf, hv]

/-- The escape pass never introduces a backtick for well-behaved input. -/
theorem escape_good_no_backtick (v : List Char)
    (hv : ∀ c ∈ v, goodDescChar c = true) :
    ∀ c ∈ escapeJsonString v, ¬c = '`' := by
  intro c hc
  rw [escapeJsonString, List.mem_flatMap] at hc
  obtain ⟨a, ha, hmem⟩ := hc
  rcases goodDescChar_elim a (hv a ha) with h | h | h | ⟨h32, hq, hb, hbt⟩
  · subst h
    rw [show escChar '\n' = ['\\', 'n'] from rfl] at hmem
    rcases (by simpa using hmem : c = '\\' ∨ c = 'n') with hc | hc <;> (subst hc; decide)
  · subst h
    rw [show escChar '\r' = ['\\', 'r'] from rfl] at hmem
    rcases (by simpa using hmem : c = '\\' ∨ c = 'r') with hc | hc <;> (subst hc; decide)
  · subst h
    rw [show escChar '\t' = ['\\', 't'] from rfl] at hmem
    rcases (by simpa using hmem : c = '\\' ∨ c = 't') with hc | hc <;> (subst hc; decide)
  · rw [escChar_printable a h32 hq hb] at hmem
    simp at hmem
    subst hmem
    exact hbt

/-- The function `dropWhile` is the identity when the head does not satisfy the predicate. -/
theorem dropWhile_eq_self_of_head (p : Char → Bool) (l : List Char)
    (h : ∀ c ∈ l.head?, p c = false) : l.dropWhile p = l := by
  cases l with
  | nil => rfl
  | cons a rest =>
    have ha : p a = false := h a (by simp)
    simp [List.dropWhile, ha]

/-- The function `trim` is the identity when both ends are non-whitespace. -/
theorem jsTrimChars_eq_self (l : List Char)
    (h1 : ∀ c ∈ l.head?, jsWhitespace c = false)
    (h2 : ∀ c ∈ l.getLast?, jsWhitespace c = false) : jsTrimChars l = l := by
  unfold jsTrimChars
  rw [dropWhile_eq_self_of_head _ _ h1]
  rw [dropWhile_eq_self_of_head _ _ (by simpa [List.head?_reverse] using h2)]
  exact List.reverse_reverse l

/-- The claim's template text is already trimmed. -/
theorem jsTrimChars_descTemplate (v : List Char) :
    jsTrimChars (descTemplate v) = descTemplate v := by
  apply jsTrimChars_eq_self
  · intro c hc
    simp [descTemplate] at hc
    subst hc
    decide
  · intro c hc
    have hshape : descTemplate v
        = ('\x7b' :: '"' :: ("description".data ++ ['"', ':', '"']) ++ v) ++ ['"', '\x7d'] := by
      simp [descTemplate]
    rw [hshape, List.getLast?_append_of_ne_nil _ (by simp)] at hc
    simp at hc
    subst hc
    decide

theorem sanitizeFieldAux_empty (field : List Char) (g : ℕ) :
    sanitizeFieldAux field g [] = [] := by
  cases g <;> rfl

/-- The non-greedy field-value capture stops exactly at the closing quote when
the value itself contains no quote and the lookahead succeeds. -/
theorem scanFieldValue_clean (v : List Char) (hv : ∀ c ∈ v, ¬c = '"')
    (rest : List Char) (hla : fieldLookahead rest = true) :
    scanFieldValue (v ++ '"' :: rest) = some (v, rest) := by
  induction v with
  | nil => simp [scanFieldValue, hla]
  | cons a v ih =>
    have ha : ¬a = '"' := hv a (by simp)
    have ih' := ih (fun c hc => hv c (by simp [hc]))
    simp [scanFieldValue, ha, ih']

/-- The field matcher, at the `description` key of the template, captures
exactly the value `v`. -/
theorem matchFieldAt_descTemplate (v : List Char) (hv : ∀ c ∈ v, ¬c = '"') :
    matchFieldAt "description".data
      ('"' :: ("description".data ++ '"' :: ':' :: '"' :: (v ++ ['"', '\x7d'])))
      = some (v, ['\x7d']) := by
  have h := scanFieldValue_clean v hv ['\x7d'] (by decide)
  have e0 : matchFieldAt "description".data
      ('"' :: ("description".data ++ '"' :: ':' :: '"' :: (v ++ ['"', '\x7d'])))
      = scanFieldValue (v ++ '"' :: ['\x7d']) := rfl
  exact e0.trans h

/-- The `description` rewriting pass on the template, for any fuel of the
shape `g + 3`. -/
theorem sanitizeFieldAux_descTemplate (v : List Char) (hv : ∀ c ∈ v, ¬c = '"')
    (g : ℕ) :
    sanitizeFieldAux "description".data (g + 3) (descTemplate v)
      = sanitizedDescTemplate v := by
  have hm := matchFieldAt_descTemplate v hv
  have e1 : sanitizeFieldAux "description".data (g + 3) (descTemplate v)
      = '\x7b' :: sanitizeFieldAux "description".data (g + 2)
          ('"' :: ("description".data ++ '"' :: ':' :: '"' :: (v ++ ['"', '\x7d']))) := rfl
  rw [e1]
  conv_lhs => rw [sanitizeFieldAux]
  rw [hm]
  show '\x7b' :: ('"' :: "description".data ++ '"' :: ':' :: ' ' :: '"' ::
      (escapeJsonString v ++ '"' :: sanitizeFieldAux "description".data (g + 1) ['\x7d']))
    = sanitizedDescTemplate v
  have e2 : sanitizeFieldAux "description".data (g + 1) ['\x7d']
      = '\x7d' :: sanitizeFieldAux "description".data g [] := rfl
  rw [e2, sanitizeFieldAux_empty]
  simp [sanitizedDescTemplate]

/-- The full `description` pass on the template. -/
theorem sanitizeField_descTemplate (v : List Char) (hv : ∀ c ∈ v, ¬c = '"') :
    sanitizeField "description".data (descTemplate v) = sanitizedDescTemplate v := by
  unfold sanitizeField
  have hlen : (descTemplate v).length + 1 = (v.length + 16) + 3 := by
    simp [descTemplate]
  rw [hlen]
  exact sanitizeFieldAux_descTemplate v hv (v.length + 16)

/-- The fence pattern cannot match at a position that does not start with a
backtick. -/
theorem fenceAt_none_of_ne (c : Char) (rest : List Char) (h : ¬c = '`') :
    fenceAt (c :: rest) = none := by
  unfold fenceAt
  split
  · next heq =>
    injection heq with h1 h2
    exact absurd h1 h
  · rfl

/-- A backtick-free text has no fenced block. -/
theorem fenceMatch_none (l : List Char) (h : ∀ c ∈ l, ¬c = '`') :
    fenceMatch l = none := by
  induction l with
  | nil => rfl
  | cons c rest ih =>
    rw [fenceMatch, fenceAt_none_of_ne c rest (h c (by simp))]
    exact ih (fun x hx => h x (by simp [hx]))

/-- No character of the sanitized template is a backtick. -/
theorem sanitizedDescTemplate_no_backtick (v : List Char)
    (hv : ∀ c ∈ v, goodDescChar c = true) :
    ∀ c ∈ sanitizedDescTemplate v, ¬c = '`' := by
  have hshape : sanitizedDescTemplate v
      = ['\x7b', '"', 'd', 'e', 's', 'c', 'r', 'i', 'p', 't', 'i', 'o', 'n', '"', ':', ' ', '"']
        ++ (escapeJsonString v ++ ['"', '\x7d']) := by
    simp [sanitizedDescTemplate]
  intro c hc
  rw [hshape] at hc
  rcases List.mem_append.mp hc with hc | hc
  · have hall : ∀ x ∈ (['\x7b', '"', 'd', 'e', 's', 'c', 'r', 'i', 'p', 't', 'i', 'o',
        'n', '"', ':', ' ', '"'] : List Char), ¬x = '`' := by decide
    exact hall c hc
  · rcases List.mem_append.mp hc with hc | hc
    · exact escape_good_no_backtick v hv c hc
    · have hall : ∀ x ∈ (['"', '\x7d'] : List Char), ¬x = '`' := by decide
      exact hall c hc

/-- The balanced scanner walks an escaped well-behaved value inside a string
without changing state, then closes on the final quote and brace. -/
theorem findBalancedAux_escape (v : List Char)
    (hv : ∀ c ∈ v, goodDescChar c = true) (l acc : List Char) :
    findBalancedAux (escapeJsonString v ++ '"' :: '\x7d' :: l) true false 1 acc
      = some (acc ++ escapeJsonString v ++ ['"', '\x7d']) := by
  induction v generalizing acc with
  | nil =>
    rw [escapeJsonString_nil]
    show findBalancedAux ('"' :: '\x7d' :: l) true false 1 acc = _
    rw [findBalancedAux]
    simp only [if_neg (by decide : ¬(false = true)), if_neg (by decide : ¬('"' = '\\')),
      if_pos rfl]
    rw [findBalancedAux]
    simp [List.append_assoc]
  | cons a v ih =>
    have ih' := ih (fun c hc => hv c (by simp [hc]))
    rcases goodDescChar_elim a (hv a (by simp)) with h | h | h | ⟨h32, hq, hb, hbt⟩
    · subst h
      rw [escapeJsonString_cons, show escChar '\n' = ['\\', 'n'] from rfl]
      show findBalancedAux ('\\' :: 'n' :: (escapeJsonString v ++ '"' :: '\x7d' :: l))
        true false 1 acc = _
      rw [findBalancedAux]
      simp only [if_neg (by decide : ¬(false = true)), if_pos rfl]
      rw [findBalancedAux]
      simp only [if_pos rfl]
      rw [ih' ((acc ++ ['\\']) ++ ['n'])]
      simp [List.append_assoc]
    · subst h
      rw [escapeJsonString_cons, show escChar '\r' = ['\\', 'r'] from rfl]
      show findBalancedAux ('\\' :: 'r' :: (escapeJsonString v ++ '"' :: '\x7d' :: l))
        true false 1 acc = _
      rw [findBalancedAux]
      simp only [if_neg (by decide : ¬(false = true)), if_pos rfl]
      rw [findBalancedAux]
      simp only [if_pos rfl]
      rw [ih' ((acc ++ ['\\']) ++ ['r'])]
      simp [List.append_assoc]
    · subst h
      rw [escapeJsonString_cons, show escChar '\t' = ['\\', 't'] from rfl]
      show findBalancedAux ('\\' :: 't' :: (escapeJsonString v ++ '"' :: '\x7d' :: l))
        true false 1 acc = _
      rw [findBalancedAux]
      simp only [if_neg (by decide : ¬(false = true)), if_pos rfl]
      rw [findBalancedAux]
      simp only [if_pos rfl]
      rw [ih' ((acc ++ ['\\']) ++ ['t'])]
      simp [List.append_assoc]
    · rw [escapeJsonString_cons, escChar_printable a h32 hq hb]
      show findBalancedAux (a :: (escapeJsonString v ++ '"' :: '\x7d' :: l))
        true false 1 acc = _
      rw [findBalancedAux]
      simp only [if_neg (by decide : ¬(false = true)), if_neg hb, if_neg hq,
        Bool.not_true, Bool.false_and, if_neg (by decide : ¬(false = true))]
      rw [ih' (acc ++ [a])]
      simp [List.append_assoc]

/-- The balanced scan returns the sanitized template whole. -/
theorem findBalancedJSON_sanitizedDesc (v : List Char)
    (hv : ∀ c ∈ v, goodDescChar c = true) :
    findBalancedJSON (sanitizedDescTemplate v) = some (sanitizedDescTemplate v) := by
  have h := findBalancedAux_escape v hv []
    ['\x7b', '"', 'd', 'e', 's', 'c', 'r', 'i', 'p', 't', 'i', 'o', 'n', '"', ':', ' ', '"']
  have e0 : findBalancedJSON (sanitizedDescTemplate v)
      = findBalancedAux (escapeJsonString v ++ '"' :: '\x7d' :: []) true false 1
          ['\x7b', '"', 'd', 'e', 's', 'c', 'r', 'i', 'p', 't', 'i', 'o', 'n', '"', ':', ' ', '"']
      := rfl
  rw [e0, h]
  simp [sanitizedDescTemplate]

/-- The `JSON.parse` string scanner inverts the escape pass on well-behaved
values: the parsed string content is exactly the original value. -/
theorem parseStringBody_escape (v : List Char)
    (hv : ∀ c ∈ v, goodDescChar c = true) (rest : List Char) :
    parseStringBody (escapeJsonString v ++ '"' :: rest) = some (v, rest) := by
  induction v with
  | nil =>
    rw [escapeJsonString_nil, List.nil_append, parseStringBody.eq_def]
    simp
  | cons a v ih =>
    have ih' := ih (fun c hc => hv c (by simp [hc]))
    rcases goodDescChar_elim a (hv a (by simp)) with h | h | h | ⟨h32, hq, hb, hbt⟩
    · subst h
      rw [escapeJsonString_cons, show escChar '\n' = ['\\', 'n'] from rfl]
      rw [show (['\\', 'n'] ++ escapeJsonString v) ++ '"' :: rest
          = '\\' :: 'n' :: (escapeJsonString v ++ '"' :: rest) by simp]
      rw [parseStringBody.eq_def]
      simp [ih']
    · subst h
      rw [escapeJsonString_cons, show escChar '\r' = ['\\', 'r'] from rfl]
      rw [show (['\\', 'r'] ++ escapeJsonString v) ++ '"' :: rest
          = '\\' :: 'r' :: (escapeJsonString v ++ '"' :: rest) by simp]
      rw [parseStringBody.eq_def]
      simp [ih']
    · subst h
      rw [escapeJsonString_cons, show escChar '\t' = ['\\', 't'] from rfl]
      rw [show (['\\', 't'] ++ escapeJsonString v) ++ '"' :: rest
          = '\\' :: 't' :: (escapeJsonString v ++ '"' :: rest) by simp]
      rw [parseStringBody.eq_def]
      simp [ih']
    · rw [escapeJsonString_cons, escChar_printable a h32 hq hb]
      rw [show ([a] ++ escapeJsonString v) ++ '"' :: rest
          = a :: (escapeJsonString v ++ '"' :: rest) by simp]
      have h32' : ¬(a.toNat < 32) := by omega
      rw [parseStringBody.eq_def]
      simp [hq, hb, h32', ih']

/-- The value parser, on a whitespace-prefixed quoted escaped value, returns
the original string. -/
theorem parseJsonValue_escapedString (v : List Char)
    (hv : ∀ c ∈ v, goodDescChar c = true) (g : ℕ) :
    parseJsonValue (g + 1) (' ' :: '"' :: (escapeJsonString v ++ '"' :: '\x7d' :: []))
      = some (.jstr v, ['\x7d']) := by
  have h := parseStringBody_escape v hv ('\x7d' :: [])
  have e0 : parseJsonValue (g + 1) (' ' :: '"' :: (escapeJsonString v ++ '"' :: '\x7d' :: []))
      = (parseStringBody (escapeJsonString v ++ '"' :: '\x7d' :: [])).map
          (fun p => (Json.jstr p.1, p.2)) := rfl
  rw [e0, h]
  rfl

/-- The key `"description"` (printable, quote-free) is parsed verbatim. -/
theorem parseStringBody_descKey (rest : List Char) :
    parseStringBody ("description".data ++ '"' :: rest) = some ("description".data, rest) := by
  have h := parseStringBody_escape "description".data (by decide) rest
  rwa [show escapeJsonString "description".data = "description".data from by decide] at h

/-- The member parser on the sanitized template's object body. -/
theorem parseJsonMembers_sanitizedDesc (v : List Char)
    (hv : ∀ c ∈ v, goodDescChar c = true) (g : ℕ) :
    parseJsonMembers (g + 2)
        ('"' :: ("description".data ++ '"' :: ':' :: ' ' :: '"' ::
          (escapeJsonString v ++ '"' :: '\x7d' :: []))) []
      = some (.jobj [("description".data, .jstr v)], []) := by
  have hkey := parseStringBody_descKey
    (':' :: ' ' :: '"' :: (escapeJsonString v ++ '"' :: '\x7d' :: []))
  have hval := parseJsonValue_escapedString v hv g
  have hkey2 : parseStringBody
      ('d' :: 'e' :: 's' :: 'c' :: 'r' :: 'i' :: 'p' :: 't' :: 'i' :: 'o' :: 'n' :: '"' ::
        ':' :: ' ' :: '"' :: (escapeJsonString v ++ ['"', '\x7d']))
      = some (['d', 'e', 's', 'c', 'r', 'i', 'p', 't', 'i', 'o', 'n'],
          ':' :: ' ' :: '"' :: (escapeJsonString v ++ ['"', '\x7d'])) := by
    simpa using hkey
  rw [parseJsonMembers.eq_def]
  simp [hkey2, hval, jsonWs, List.dropWhile_cons]

/-- The value parser on the whole sanitized template. -/
theorem parseJsonValue_sanitizedDesc (v : List Char)
    (hv : ∀ c ∈ v, goodDescChar c = true) (g : ℕ) :
    parseJsonValue (g + 3) (sanitizedDescTemplate v)
      = some (.jobj [("description".data, .jstr v)], []) := by
  have h := parseJsonMembers_sanitizedDesc v hv g
  have e0 : parseJsonValue (g + 3) (sanitizedDescTemplate v)
      = parseJsonMembers (g + 2)
          ('"' :: ("description".data ++ '"' :: ':' :: ' ' :: '"' ::
            (escapeJsonString v ++ '"' :: '\x7d' :: []))) [] := rfl
  rw [e0, h]

/-- Parsing succeeds on the sanitized template and recovers the value. -/
theorem jsonParse_sanitizedDesc (v : List Char)
    (hv : ∀ c ∈ v, goodDescChar c = true) :
    jsonParse (sanitizedDescTemplate v)
      = some (.jobj [("description".data, .jstr v)]) := by
  unfold jsonParse
  have hlen : (sanitizedDescTemplate v).length + 2
      = ((escapeJsonString v).length + 18) + 3 := by
    simp [sanitizedDescTemplate]
  rw [hlen, parseJsonValue_sanitizedDesc v hv ((escapeJsonString v).length + 18)]
  rfl

/-- C6 counterexample.  The response text `{"description":"a\", b<LF>c"}` has
an unescaped literal newline inside the `description` string value, yet the
extraction fails entirely (every strategy, including the control-character
pre-pass, yields unparseable text): the non-greedy field capture stops at the
value's escaped quote because it is followed by a comma, the rewrite turns
the text into invalid JSON, the balanced scan ends inside an open string, and
`JSON.parse` rejects both the rewritten text and any slice of it. -/
theorem spec_c6_counterexample :
    '\n' ∈ badDescText ∧ extractJavaQuestionsJSON badDescText = none :=
  ⟨by decide, rfl⟩

/-- C6 amended.  For a response text whose `description` value is
well-behaved free text (no double quote, backslash or backtick; printable
characters plus newline/carriage-return/tab) containing an unescaped literal
newline, and on which the `codeTemplate`/`input` rewriting passes do not
fire, the pre-pass rewrites the value's control characters into escaped form
and the extraction returns a successfully parsed object in which the newline
is preserved as content of the `description` string. -/
theorem spec_c6_amended (v : List Char)
    (hGood : ∀ c ∈ v, goodDescChar c = true) (_hNl : '\n' ∈ v)
    (hCT : sanitizeField "codeTemplate".data (descTemplate v) = descTemplate v)
    (hIn : sanitizeField "input".data (descTemplate v) = descTemplate v) :
    extractJavaQuestionsJSON (descTemplate v)
      = some (.jobj [("description".data, .jstr v)]) := by
  have hq : ∀ c ∈ v, ¬c = '"' := fun c hc => goodDescChar_ne_quote c (hGood c hc)
  have hclean : cleanJavaQuestionsResponse (descTemplate v) = sanitizedDescTemplate v := by
    unfold cleanJavaQuestionsResponse
    rw [jsTrimChars_descTemplate, hCT, hIn, sanitizeField_descTemplate v hq]
  unfold extractJavaQuestionsJSON
  rw [hclean, fenceMatch_none _ (sanitizedDescTemplate_no_backtick v hGood),
    findBalancedJSON_sanitizedDesc v hGood]
  exact jsonParse_sanitizedDesc v hGood

/-- C6 witness: the amended theorem applied to
`{"description":"line1<LF>line2"}`. -/
theorem spec_c6_witness :
    (∀ c ∈ ("line1".data ++ '\n' :: "line2".data), goodDescChar c = true) ∧
    '\n' ∈ ("line1".data ++ '\n' :: "line2".data) ∧
    sanitizeField "codeTemplate".data (descTemplate ("line1".data ++ '\n' :: "line2".data))
      = descTemplate ("line1".data ++ '\n' :: "line2".data) ∧
    sanitizeField "input".data (descTemplate ("line1".data ++ '\n' :: "line2".data))
      = descTemplate ("line1".data ++ '\n' :: "line2".data) ∧
    extractJavaQuestionsJSON (descTemplate ("line1".data ++ '\n' :: "line2".data))
      = some (.jobj [("description".data, .jstr ("line1".data ++ '\n' :: "line2".data))]) :=
  ⟨by decide, by decide, rfl, rfl,
    spec_c6_amended ("line1".data ++ '\n' :: "line2".data) (by decide) (by decide) rfl rfl⟩

end StudyBuddy
